import Mathlib

/-!
Verification of the tennis-news article scraper/summarizer pipeline
(`tennis-news-article-scraper-summary.py`).

The script is shallowly embedded here: Python strings are modelled as
`List Char`, the HTTP fetch and the Gemini text-generation call are
modelled as explicit function parameters returning tagged outcomes, and
every `try/except`-guarded operation is modelled as an `Option`/`Except`
value.  Character classes (`\w`, `str.strip`) are modelled on the ASCII
fragment of Unicode, which covers every concrete input used below.
-/

/-- Python strings are modelled as lists of characters. -/
abbrev Str := List Char

/-- Embed a Lean string literal as a `Str`. -/
def lit (s : String) : Str := s.data

/-- ASCII fragment of the regex word-character class `\w`:
letters, digits and underscore. -/
def isWordChar (c : Char) : Bool := c.isAlphanum || c = '_'

/-- Scanner behind the source call to re.findall with the word-run
pattern: `cur` holds the word characters of the run currently being
read, most recent first. -/
def tokenizeAcc : Str → Str → List Str
  | [], cur => if cur.isEmpty then [] else [cur.reverse]
  | c :: cs, cur =>
    if isWordChar c then
      tokenizeAcc cs (c :: cur)
    else if cur.isEmpty then
      tokenizeAcc cs []
    else
      cur.reverse :: tokenizeAcc cs []

/-- Embedding of re.findall with the word-run pattern: the list of
maximal runs of word characters of the text, in order. -/
def tokenize (s : Str) : List Str := tokenizeAcc s []

/-- Python `round` applied to the exact rational `n / d` (`d > 0`):
round to nearest, ties to even.  The script computes `word_count / 250`
in floating point, but for every realistic word count the float rounds
exactly as the rational does. -/
def pyRound (n d : Nat) : Nat :=
  let q := n / d
  let r := n % d
  if 2 * r < d then q
  else if d < 2 * r then q + 1
  else if q % 2 = 0 then q else q + 1

/-- The function estimate_reading_time: count the word-run tokens,
divide by 250 words per minute, round, floor at 1. -/
def estimate_reading_time (text : Str) : Nat :=
  let word_count := (tokenize text).length
  max 1 (pyRound word_count 250)

/-- Specification-side count of the maximal runs of word characters:
the number of positions that start a run, carrying whether the previous
character was a word character. -/
def runCountAux : Bool → Str → Nat
  | _, [] => 0
  | prev, c :: cs =>
    (if isWordChar c && !prev then 1 else 0) + runCountAux (isWordChar c) cs

/-- Number of maximal runs of word characters in `s`. -/
def wordRunCount (s : Str) : Nat := runCountAux false s

theorem tokenizeAcc_length (s : Str) : ∀ cur : Str,
    (tokenizeAcc s cur).length =
      (if cur.isEmpty then runCountAux false s else 1 + runCountAux true s) := by
  induction s with
  | nil => intro cur; cases cur <;> simp [tokenizeAcc, runCountAux]
  | cons c cs ih =>
    intro cur
    cases h : isWordChar c with
    | true =>
      cases cur with
      | nil => simp [tokenizeAcc, h, ih, runCountAux]
      | cons d ds => simp [tokenizeAcc, h, ih, runCountAux]
    | false =>
      cases cur with
      | nil => simp [tokenizeAcc, h, ih, runCountAux]
      | cons d ds => simp [tokenizeAcc, h, ih, runCountAux]; omega

/-- The token list produced by the `re.findall` embedding has exactly
one element per maximal run of word characters. -/
theorem tokenize_length (s : Str) : (tokenize s).length = wordRunCount s := by
  simpa [tokenize, wordRunCount] using tokenizeAcc_length s []

/-- A sample text consisting of `n` one-letter words separated by
spaces: `"a a a ... a "`. -/
def sampleWords (n : Nat) : Str := (List.replicate n (lit "a ")).flatten

theorem wordRunCount_sampleWords (n : Nat) :
    wordRunCount (sampleWords n) = n := by
  unfold wordRunCount sampleWords
  induction n with
  | zero => rfl
  | succ k ih =>
    rw [List.replicate_succ, List.flatten_cons]
    show runCountAux false ('a' :: ' ' :: (List.replicate k (lit "a ")).flatten) = k + 1
    have ha : isWordChar 'a' = true := by decide
    have hs : isWordChar ' ' = false := by decide
    simp [runCountAux, ha, hs]
    omega

theorem estimate_sampleWords (n : Nat) :
    estimate_reading_time (sampleWords n) = max 1 (pyRound n 250) := by
  unfold estimate_reading_time
  rw [tokenize_length, wordRunCount_sampleWords]

/-- C1: `estimate_reading_time` returns the number of maximal runs of
word characters divided by 250 and rounded to the nearest integer
(ties to even, as Python `round` does), floored at 1; in particular it
returns 1 on a text of 250 word-tokens, 1 on a text with no
word-tokens, and 3 on a text of 751 word-tokens. -/
theorem c1_reading_time_estimator (s : Str) :
    estimate_reading_time s = max 1 (pyRound (wordRunCount s) 250) ∧
    estimate_reading_time (sampleWords 250) = 1 ∧
    estimate_reading_time [] = 1 ∧
    estimate_reading_time (sampleWords 751) = 3 := by
  refine ⟨?_, ?_, ?_, ?_⟩
  · unfold estimate_reading_time
    rw [tokenize_length]
  · rw [estimate_sampleWords]; decide
  · decide
  · rw [estimate_sampleWords]; decide

/-- Python `str.strip()` on the ASCII fragment: drop whitespace from
both ends. -/
def pyStrip (s : Str) : Str :=
  ((s.dropWhile Char.isWhitespace).reverse.dropWhile Char.isWhitespace).reverse

/-- Python string split for a one-character separator: split on every
occurrence, keeping empty fragments — splitting the empty string gives
one empty fragment, and adjacent separators leave an empty fragment
between them. -/
def pySplit (sep : Char) : Str → List Str
  | [] => [[]]
  | c :: cs =>
    if c = sep then [] :: pySplit sep cs
    else
      match pySplit sep cs with
      | [] => [[c]]
      | s :: rest => (c :: s) :: rest

/-- Python string join of the fragments with a single space between
consecutive fragments. -/
def joinSpace : List Str → Str
  | [] => []
  | [s] => s
  | s :: t :: rest => s ++ (' ' :: joinSpace (t :: rest))

/-- What the script reads from the parsed HTML document (the parser
itself is an external collaborator): the text of the first `h1`
element, when one exists, and the `get_text()` of every `p`/`article`
element in document order. -/
structure Doc where
  h1 : Option Str
  elements : List Str
deriving DecidableEq

/-- Outcome of `requests.get`: either the transport raises, or a
response with a status code and a parsed document is available. -/
inductive FetchResult where
  | netError : FetchResult
  | response (status : Nat) (doc : Doc) : FetchResult
deriving DecidableEq

/-- The record dict built by `extract_article_content` and enriched by
`process_urls`; `summary` is absent (`none`) until `process_urls`
attaches it. -/
structure ArticleRecord where
  url : Str
  title : Str
  text : Str
  reading_time : Nat
  source : Str
  summary : Option Str
deriving DecidableEq

/-- Body text of the record: strip each paragraph fragment, keep the
non-empty ones, join with single spaces, exactly as the comprehension
over content_paragraphs does. -/
def bodyText (doc : Doc) : Str :=
  joinSpace ((doc.elements.map pyStrip).filter (fun s => !s.isEmpty))

/-- Title of the record: the stripped text of the first h1 element
when one exists, the sentinel otherwise. -/
def titleOf (doc : Doc) : Str :=
  match doc.h1 with
  | some t => pyStrip t
  | none => lit "No Title"

/-- The function extract_article_content: fetch the page, require
status 200, derive title and body text, require non-empty body text,
and build the record; looking up index 2 of the URL split on the slash
raises IndexError on a URL with fewer than three segments, which the
surrounding except-clause turns into no record, as it does a transport
error. -/
def extract_article_content (fetch : Str → FetchResult) (url : Str) :
    Option ArticleRecord :=
  match fetch url with
  | FetchResult.netError => none
  | FetchResult.response status doc =>
    if status ≠ 200 then none
    else if bodyText doc = [] then none
    else
      match pySplit '/' url with
      | _ :: _ :: host :: _ =>
        some { url := url, title := titleOf doc, text := bodyText doc,
               reading_time := estimate_reading_time (bodyText doc),
               source := host, summary := none }
      | _ => none

/-- 2xx status class, as named by the claim. -/
def is2xx (status : Nat) : Bool := decide (200 ≤ status ∧ status < 300)

/-- The failure conditions listed by claim C2: transport error,
non-2xx status, or empty extracted body text. -/
def specFailureCond : FetchResult → Prop
  | FetchResult.netError => True
  | FetchResult.response status doc => is2xx status = false ∨ bodyText doc = []

/-- Claim C2 as stated, at a given fetch behaviour and URL: no record
is produced exactly when one of the listed failure conditions holds. -/
def claimC2At (fetch : Str → FetchResult) (url : Str) : Prop :=
  extract_article_content fetch url = none ↔ specFailureCond (fetch url)

/-- A document with no `h1` and one paragraph of non-empty text. -/
def docBody : Doc := { h1 := none, elements := [lit "Body text."] }

/-- A URL with at least three `/`-separated segments. -/
def urlEx : Str := lit "https://example.com/a"

/-- C2 counterexample: a fetch that returns HTTP 201 — a 2xx status —
with a non-empty body still produces no record (the code tests
`status_code != 200`, not membership in the 2xx class), so "no record
exactly when non-2xx status, transport error, or empty body" fails. -/
theorem c2_counterexample :
    ¬ claimC2At (fun _ => FetchResult.response 201 docBody) urlEx := by
  intro h
  have hnone : extract_article_content
      (fun _ => FetchResult.response 201 docBody) urlEx = none := by decide
  have hc : is2xx 201 = false ∨ bodyText docBody = [] := h.mp hnone
  rcases hc with h1 | h2
  · exact absurd h1 (by decide)
  · exact absurd h2 (by decide)

/-- C2 (amended): `extract_article_content` produces no record exactly
when the transport errors, the status differs from 200, the body text
is empty after extraction, or the URL has fewer than three
`/`-separated segments (host-index lookup fails); in particular a 404
response produces no record. -/
theorem c2_extraction_failure_modes (fetch : Str → FetchResult) (url : Str) :
    (extract_article_content fetch url = none ↔
      (fetch url = FetchResult.netError ∨
        ∃ status doc, fetch url = FetchResult.response status doc ∧
          (status ≠ 200 ∨ bodyText doc = [] ∨ (pySplit '/' url).length < 3))) ∧
    extract_article_content (fun _ => FetchResult.response 404 docBody) urlEx = none := by
  constructor
  · cases hf : fetch url with
    | netError => simp [extract_article_content, hf]
    | response status doc =>
      by_cases h200 : status = 200
      · subst h200
        by_cases hbt : bodyText doc = []
        · simp [extract_article_content, hf, hbt]
          exact ⟨200, doc, ⟨rfl, rfl⟩, Or.inr (Or.inl hbt)⟩
        · rcases hsp : pySplit '/' url with _ | ⟨a, _ | ⟨b, _ | ⟨c, rest⟩⟩⟩ <;>
            simp [extract_article_content, hf, hbt, hsp]
      · simp [extract_article_content, hf, h200]
        exact ⟨status, doc, ⟨rfl, rfl⟩, Or.inl h200⟩
  · decide

/-- Inversion of a successful extraction: the status was 200, the body
text non-empty, the URL had at least three segments, and the record is
exactly the dict built by the source. -/
theorem extract_success_inv (fetch : Str → FetchResult) (url : Str)
    (status : Nat) (doc : Doc) (r : ArticleRecord)
    (hf : fetch url = FetchResult.response status doc)
    (hr : extract_article_content fetch url = some r) :
    status = 200 ∧ bodyText doc ≠ [] ∧
    ∃ a b host rest, pySplit '/' url = a :: b :: host :: rest ∧
      r = { url := url, title := titleOf doc, text := bodyText doc,
            reading_time := estimate_reading_time (bodyText doc),
            source := host, summary := none } := by
  simp only [extract_article_content, hf] at hr
  by_cases h200 : status = 200
  · subst h200
    rw [if_neg (by simp)] at hr
    by_cases hbt : bodyText doc = []
    · rw [if_pos hbt] at hr; simp at hr
    · rw [if_neg hbt] at hr
      rcases hsp : pySplit '/' url with _ | ⟨a, tl⟩
      · rw [hsp] at hr; simp at hr
      · rcases tl with _ | ⟨b, tl2⟩
        · rw [hsp] at hr; simp at hr
        · rcases tl2 with _ | ⟨host, rest⟩
          · rw [hsp] at hr; simp at hr
          · rw [hsp] at hr
            simp only [Option.some.injEq] at hr
            exact ⟨rfl, hbt, a, b, host, rest, rfl, hr.symm⟩
  · rw [if_pos h200] at hr; simp at hr

/-- C7: when extraction succeeds on a fetched document, the title of
the record is the stripped text of the first h1 element of that
document, and equals the sentinel when the document has no h1. -/
theorem c7_title_extraction (fetch : Str → FetchResult) (url : Str)
    (status : Nat) (doc : Doc) (r : ArticleRecord)
    (hf : fetch url = FetchResult.response status doc)
    (hr : extract_article_content fetch url = some r) :
    r.title = titleOf doc ∧ (doc.h1 = none → r.title = lit "No Title") := by
  obtain ⟨-, -, a, b, host, rest, -, hrec⟩ :=
    extract_success_inv fetch url status doc r hf hr
  subst hrec
  refine ⟨rfl, fun h => ?_⟩
  simp [titleOf, h]

/-- A fetch that always answers 200 with `docBody`. -/
def fetchOk : Str → FetchResult := fun _ => FetchResult.response 200 docBody

/-- The record `extract_article_content fetchOk urlEx` produces. -/
def recEx : ArticleRecord :=
  { url := urlEx, title := lit "No Title", text := lit "Body text.",
    reading_time := 1, source := lit "example.com", summary := none }

/-- Witness for C7 at a concrete heading-less document. -/
theorem c7_witness :
    recEx.title = titleOf docBody ∧
    (docBody.h1 = none → recEx.title = lit "No Title") :=
  c7_title_extraction fetchOk urlEx 200 docBody recEx rfl (by decide)

/-- The example URL named by the claim, with host at split-index 2. -/
def urlAB : Str := lit "https://example.com/a/b"

/-- The record `extract_article_content fetchOk urlAB` produces. -/
def recAB : ArticleRecord :=
  { url := urlAB, title := lit "No Title", text := lit "Body text.",
    reading_time := 1, source := lit "example.com", summary := none }

/-- C8: for every successful extraction the source field of the record
is the element at index 2 of the URL split on the slash; in particular
the source extracted for the example URL is its host segment. -/
theorem c8_source_field (fetch : Str → FetchResult) (url : Str)
    (r : ArticleRecord)
    (hr : extract_article_content fetch url = some r) :
    (pySplit '/' url)[2]? = some r.source ∧
    Option.map ArticleRecord.source (extract_article_content fetchOk urlAB) =
      some (lit "example.com") := by
  constructor
  · cases hfu : fetch url with
    | netError => simp [extract_article_content, hfu] at hr
    | response status doc =>
      obtain ⟨-, -, a, b, host, rest, hsp, hrec⟩ :=
        extract_success_inv fetch url status doc r hfu hr
      subst hrec
      simp [hsp]
  · decide

/-- Witness for C8 at the example URL. -/
theorem c8_witness :
    (pySplit '/' urlAB)[2]? = some recAB.source ∧
    Option.map ArticleRecord.source (extract_article_content fetchOk urlAB) =
      some (lit "example.com") :=
  c8_source_field fetchOk urlAB recAB (by decide)

/-- The fixed sentinel returned on any summarization failure. -/
def sentinel : Str := lit "Unable to generate summary"

/-- Title-context line of the prompt: the fixed label followed by the
custom title; Python truthiness makes both a missing title and the
empty string yield the empty context. -/
def titleContext : Option Str → Str
  | some t => if t.isEmpty then [] else lit "Article Title: " ++ t
  | none => []

/-- The fixed instructional template of the prompt f-string, between
the title context and the truncated article text. -/
def promptHead : Str :=
  lit "\n            Please provide a summary of the following article text for my tennis newsletter. \n            The summary should be no more than 1 paragraph and around 3-4 sentences, capturing the key points and main message. Here is an example summary:\n\n            British number one Katie Boulter will climb into the world\u0027s top 25 for the first time after reaching the final of the Hong Kong Open. She eventually lost in the final to Russian top seed Diana Shnaider 6-2 6-1 and missed out on a third WTA title of the year. Boulter is next set to represent Great Britain at the Billie Jean King Cup Finals on 15 November.\n\n            Article text: \n            "

/-- The material after the truncated text in the prompt f-string. -/
def promptTail : Str := lit "\n            "

/-- The outbound prompt: title context, fixed template, the article
text truncated to its first 10000 characters
(`article_text[:max_tokens]`), trailing indentation. -/
def buildPrompt (custom_title : Option Str) (article_text : Str) : Str :=
  titleContext custom_title ++ promptHead ++ article_text.take 10000 ++ promptTail

/-- The function summarize_with_gemini: build the prompt and call the
text-generation collaborator `gen`, which models the generate_content
call together with the text accessor of its response — an error
outcome covers API errors, timeouts and malformed responses; any
failure is caught and replaced by the sentinel. -/
def summarize_with_gemini (gen : Str → Except String Str)
    (article_text : Str) (custom_title : Option Str) : Str :=
  match gen (buildPrompt custom_title article_text) with
  | Except.ok t => t
  | Except.error _ => sentinel

/-- One iteration step of the `process_urls` loop over the zipped
(url, custom title) pairs. -/
def processPairs (extract : Str → Option ArticleRecord)
    (summarize : Str → Option Str → Str) :
    List (Str × Option Str) → List ArticleRecord
  | [] => []
  | (url, ct) :: rest =>
    match extract url with
    | some ad =>
      if ad.text.isEmpty then processPairs extract summarize rest
      else { ad with summary := some (summarize ad.text ct) } ::
        processPairs extract summarize rest
    | none => processPairs extract summarize rest

/-- The function process_urls: default the custom titles to one
missing title per URL, zip, and accumulate the enriched records of the
successful URLs. -/
def process_urls (extract : Str → Option ArticleRecord)
    (summarize : Str → Option Str → Str) (urls : List Str)
    (custom_titles : Option (List (Option Str))) : List ArticleRecord :=
  let titles := match custom_titles with
    | none => List.replicate urls.length none
    | some ts => ts
  processPairs extract summarize (urls.zip titles)

/-- C3: whenever the text-generation call fails on the built prompt,
`summarize_with_gemini` returns exactly the sentinel (no exception
escapes — the embedding is a total function), and `process_urls` still
retains the extracted record with the sentinel as its summary. -/
theorem c3_summarizer_sentinel (gen : Str → Except String Str)
    (text : Str) (ct : Option Str) (e : String)
    (h : gen (buildPrompt ct text) = Except.error e) :
    summarize_with_gemini gen text ct = sentinel ∧
    (∀ (extract : Str → Option ArticleRecord) (url : Str) (ad : ArticleRecord),
      extract url = some ad → ad.text = text → ad.text ≠ [] →
      process_urls extract (summarize_with_gemini gen) [url] (some [ct]) =
        [{ ad with summary := some sentinel }]) := by
  have hs : summarize_with_gemini gen text ct = sentinel := by
    unfold summarize_with_gemini
    rw [h]
  refine ⟨hs, fun extract url ad hex htext hne => ?_⟩
  show processPairs extract (summarize_with_gemini gen) [(url, ct)] =
    [{ ad with summary := some sentinel }]
  have hie : ad.text.isEmpty = false := by
    cases hta : ad.text
    · exact absurd hta hne
    · rfl
  simp [processPairs, hex, hie, htext, hs]
  exact htext ▸ hne

/-- A text-generation collaborator that always fails. -/
def genFail : Str → Except String Str := fun _ => Except.error "timeout"

/-- Witness for C3: the always-failing collaborator yields the
sentinel. -/
theorem c3_witness :
    summarize_with_gemini genFail (lit "Body text.") none = sentinel :=
  (c3_summarizer_sentinel genFail (lit "Body text.") none "timeout" rfl).1

/-- C5: the outbound prompt is fixed material around
`article_text.take 10000`, so it depends on the article text only
through its first 10000 characters: texts agreeing there give the same
prompt and the same summary. -/
theorem c5_truncation (gen : Str → Except String Str) (ct : Option Str)
    (t1 t2 : Str) (h : t1.take 10000 = t2.take 10000) :
    buildPrompt ct t1 =
      titleContext ct ++ promptHead ++ t1.take 10000 ++ promptTail ∧
    buildPrompt ct t1 = buildPrompt ct t2 ∧
    summarize_with_gemini gen t1 ct = summarize_with_gemini gen t2 ct := by
  refine ⟨rfl, ?_, ?_⟩
  · unfold buildPrompt; rw [h]
  · unfold summarize_with_gemini buildPrompt; rw [h]

/-- Witness for C5 at a concrete text. -/
theorem c5_witness :
    buildPrompt none (lit "abc") =
      titleContext none ++ promptHead ++ (lit "abc").take 10000 ++ promptTail ∧
    buildPrompt none (lit "abc") = buildPrompt none (lit "abc") ∧
    summarize_with_gemini genFail (lit "abc") none =
      summarize_with_gemini genFail (lit "abc") none :=
  c5_truncation genFail none (lit "abc") (lit "abc") rfl

/-- Specification-side outcome of one URL processed with no custom
title: the extracted record enriched with its summary, or nothing. -/
def recordFor (extract : Str → Option ArticleRecord)
    (summarize : Str → Option Str → Str) (url : Str) : Option ArticleRecord :=
  match extract url with
  | some ad =>
    if ad.text.isEmpty then none
    else some { ad with summary := some (summarize ad.text none) }
  | none => none

theorem zip_replicate_none (urls : List Str) :
    urls.zip (List.replicate urls.length (none : Option Str)) =
      urls.map (fun u => (u, none)) := by
  induction urls with
  | nil => rfl
  | cons u us ih => simp [List.replicate_succ, ih]

theorem processPairs_map_none (extract : Str → Option ArticleRecord)
    (summarize : Str → Option Str → Str) : ∀ urls : List Str,
    processPairs extract summarize (urls.map (fun u => (u, none))) =
      urls.filterMap (recordFor extract summarize) := by
  intro urls
  induction urls with
  | nil => rfl
  | cons u us ih =>
    simp only [List.map_cons, List.filterMap_cons, processPairs]
    cases hex : extract u with
    | none => simp [recordFor, hex, ih]
    | some ad =>
      cases hie : ad.text.isEmpty with
      | true => simp [recordFor, hex, hie, ih]
      | false => simp [recordFor, hex, hie, ih]

/-- The three URLs of the order-preservation scenario. -/
def urlA : Str := lit "https://site.example/a"

def urlB : Str := lit "https://site.example/b"

def urlC : Str := lit "https://site.example/c"

/-- Record extracted for `urlA`. -/
def recA : ArticleRecord :=
  { url := urlA, title := lit "TA", text := lit "body a",
    reading_time := 1, source := lit "site.example", summary := none }

/-- Record extracted for `urlC`. -/
def recC : ArticleRecord :=
  { url := urlC, title := lit "TC", text := lit "body c",
    reading_time := 1, source := lit "site.example", summary := none }

/-- An extractor succeeding on A and C and failing on B. -/
def extractABC (u : Str) : Option ArticleRecord :=
  if u = urlA then some recA else if u = urlC then some recC else none

/-- A summarizer returning a fixed summary. -/
def summConst : Str → Option Str → Str := fun _ _ => lit "summary"

/-- C4: with custom titles omitted, `process_urls` returns exactly the
per-URL successes in input order (failures contribute nothing); in
particular `[A, B, C]` with B failing yields `[recordA, recordC]`. -/
theorem c4_order_preservation (extract : Str → Option ArticleRecord)
    (summarize : Str → Option Str → Str) (urls : List Str) :
    process_urls extract summarize urls none =
      urls.filterMap (recordFor extract summarize) ∧
    process_urls extractABC summConst [urlA, urlB, urlC] none =
      [{ recA with summary := some (lit "summary") },
       { recC with summary := some (lit "summary") }] := by
  constructor
  · show processPairs extract summarize
      (urls.zip (List.replicate urls.length none)) = _
    rw [zip_replicate_none, processPairs_map_none]
  · decide

theorem processPairs_mem (extract : Str → Option ArticleRecord)
    (summarize : Str → Option Str → Str) :
    ∀ (ps : List (Str × Option Str)) (r : ArticleRecord),
    r ∈ processPairs extract summarize ps → r.text ≠ [] ∧ r.summary ≠ none := by
  intro ps
  induction ps with
  | nil => intro r h; simp [processPairs] at h
  | cons p rest ih =>
    intro r h
    obtain ⟨url, ct⟩ := p
    cases hex : extract url with
    | none =>
      simp only [processPairs, hex] at h
      exact ih r h
    | some ad =>
      cases hie : ad.text.isEmpty with
      | true =>
        simp [processPairs, hex, hie] at h
        exact ih r h
      | false =>
        simp [processPairs, hex, hie] at h
        rcases h with h | h
        · subst h
          refine ⟨?_, by simp⟩
          show ad.text ≠ []
          intro hnil
          rw [hnil] at hie
          simp at hie
        · exact ih r h

/-- C6: every record `process_urls` emits has non-empty `text` and a
present `summary` field (`title` and `source` are total string fields
of the record by construction). -/
theorem c6_record_invariant (extract : Str → Option ArticleRecord)
    (summarize : Str → Option Str → Str) (urls : List Str)
    (custom_titles : Option (List (Option Str))) (r : ArticleRecord)
    (h : r ∈ process_urls extract summarize urls custom_titles) :
    r.text ≠ [] ∧ r.summary ≠ none :=
  processPairs_mem extract summarize _ r h

/-- Witness for C6 at the concrete one-URL batch. -/
theorem c6_witness :
    ({ recA with summary := some (lit "summary") } : ArticleRecord).text ≠ [] ∧
    ({ recA with summary := some (lit "summary") } : ArticleRecord).summary ≠ none :=
  c6_record_invariant extractABC summConst [urlA] none
    { recA with summary := some (lit "summary") } (by decide)

/-- Decimal rendering of an integer, as the f-string does. -/
def natStr (n : Nat) : Str := Nat.toDigits 10 n

/-- The four lines written for one record, with its summary value `s`:
title, summary, reading time, URL, followed by the blank separator. -/
def stanzaText (a : ArticleRecord) (s : Str) : Str :=
  lit "Title: " ++ a.title ++ lit "\nSummary: " ++ s ++
  lit "\nReading Time: " ++ natStr a.reading_time ++
  lit " min\nFull Article: " ++ a.url ++ lit "\n\n"

/-- The function save_to_mailchimp_format, modelled as the text it
writes: one stanza per record in order; a record whose dict lacks the
summary key would raise KeyError at the summary lookup, modelled as
the absence of an output. -/
def save_to_mailchimp_format : List ArticleRecord → Option Str
  | [] => some []
  | a :: rest =>
    match a.summary with
    | none => none
    | some s =>
      Option.map (fun r => stanzaText a s ++ r) (save_to_mailchimp_format rest)

theorem save_some_of_summaries : ∀ arts : List ArticleRecord,
    (∀ a ∈ arts, a.summary ≠ none) →
    save_to_mailchimp_format arts =
      some ((arts.map (fun a => stanzaText a (a.summary.getD []))).flatten) := by
  intro arts
  induction arts with
  | nil => intro _; rfl
  | cons a rest ih =>
    intro h
    have ha : a.summary ≠ none := h a (List.mem_cons_self a rest)
    cases hs : a.summary with
    | none => exact absurd hs ha
    | some s =>
      simp only [save_to_mailchimp_format, hs]
      rw [ih (fun b hb => h b (List.mem_cons_of_mem a hb))]
      simp [hs]

/-- The record of the Output-Formatter test property: title `T`,
summary `S`, reading time 2, url `U`. -/
def recTSU : ArticleRecord :=
  { url := lit "U", title := lit "T", text := lit "body",
    reading_time := 2, source := lit "site", summary := some (lit "S") }

/-- C9: when every record carries a summary, the formatter emits one
four-line stanza per record in sequence order, each stanza followed by
a blank-line separator; for the one-record batch with title `T`,
summary `S`, reading time 2 and url `U` the output is exactly that
stanza. -/
theorem c9_formatter (arts : List ArticleRecord)
    (h : ∀ a ∈ arts, a.summary ≠ none) :
    save_to_mailchimp_format arts =
      some ((arts.map (fun a => stanzaText a (a.summary.getD []))).flatten) ∧
    save_to_mailchimp_format [recTSU] =
      some (lit "Title: T\nSummary: S\nReading Time: 2 min\nFull Article: U\n\n") :=
  ⟨save_some_of_summaries arts h, by decide⟩

/-- Witness for C9 at the one-record batch. -/
theorem c9_witness :
    save_to_mailchimp_format [recTSU] =
      some (([recTSU].map (fun a => stanzaText a (a.summary.getD []))).flatten) :=
  (c9_formatter [recTSU] (by decide)).1

theorem zip_take_left : ∀ (ts : List (Option Str)) (urls : List Str),
    urls.zip ts = (urls.take ts.length).zip ts := by
  intro ts
  induction ts with
  | nil => intro urls; simp
  | cons t ts ih =>
    intro urls
    cases urls with
    | nil => simp
    | cons u us => simp [List.zip_cons_cons, ih us]

theorem processPairs_congr (e1 e2 : Str → Option ArticleRecord)
    (summarize : Str → Option Str → Str) :
    ∀ ps : List (Str × Option Str), (∀ p ∈ ps, e1 p.1 = e2 p.1) →
    processPairs e1 summarize ps = processPairs e2 summarize ps := by
  intro ps
  induction ps with
  | nil => intro _; rfl
  | cons p rest ih =>
    intro h
    obtain ⟨url, ct⟩ := p
    have hp : e1 url = e2 url := h (url, ct) (List.mem_cons_self _ _)
    have hrest := ih (fun q hq => h q (List.mem_cons_of_mem _ hq))
    simp only [processPairs, ← hp, hrest]

/-- C10: `zip` stops at the shorter list, so a custom-title list
shorter than the URL list silently drops the trailing URLs: the run
equals the run on the truncated URL list, and its result is unchanged
by any modification of the extractor outside the first
`custom_titles.length` URLs. -/
theorem c10_zip_truncation (extract extract2 : Str → Option ArticleRecord)
    (summarize : Str → Option Str → Str) (urls : List Str)
    (ts : List (Option Str))
    (h : ∀ u ∈ urls.take ts.length, extract u = extract2 u) :
    process_urls extract summarize urls (some ts) =
      process_urls extract summarize (urls.take ts.length) (some ts) ∧
    process_urls extract summarize urls (some ts) =
      process_urls extract2 summarize urls (some ts) := by
  have htr : ∀ e : Str → Option ArticleRecord,
      process_urls e summarize urls (some ts) =
        process_urls e summarize (urls.take ts.length) (some ts) := by
    intro e
    show processPairs e summarize (urls.zip ts) =
      processPairs e summarize ((urls.take ts.length).zip ts)
    rw [← zip_take_left]
  refine ⟨htr extract, ?_⟩
  rw [htr extract, htr extract2]
  show processPairs extract summarize ((urls.take ts.length).zip ts) =
    processPairs extract2 summarize ((urls.take ts.length).zip ts)
  apply processPairs_congr
  intro p hp
  exact h p.1 (List.of_mem_zip hp).1

/-- An extractor agreeing with `extractABC` on `urlA` but not on
`urlB`. -/
def extractAOnly : Str → Option ArticleRecord := fun _ => some recA

/-- Witness for C10: with one custom title and two URLs, the second
URL is dropped and the behaviour of the extractor on it is
irrelevant. -/
theorem c10_witness :
    process_urls extractABC summConst [urlA, urlB] (some [none]) =
      process_urls extractABC summConst ([urlA, urlB].take 1) (some [none]) ∧
    process_urls extractABC summConst [urlA, urlB] (some [none]) =
      process_urls extractAOnly summConst [urlA, urlB] (some [none]) :=
  c10_zip_truncation extractABC extractAOnly summConst [urlA, urlB] [none]
    (by decide)
